import Mathlib

/-!
Shallow embedding of the topic-modeling service of this repository
(`topic_analyzer.py` / `main.py`): the `TopicAnalyzer.analyze_topics`
response-shaping pipeline and `TopicAnalyzer.reduce_topics`, together with
theorems settling the specification claims about them.

The clustering library (BERTopic / UMAP / HDBSCAN) is external to the
repository and is treated as an opaque clustering oracle, exactly as the
specification prescribes: it supplies a per-document integer label array
(`fit_transform`), the row order of `get_topic_info()`, and a ranked keyword
list per label (`get_topic`).  Everything the repository's own code does with
those outputs is embedded below, line by line from the source.
-/

/-- A scalar entry of an embedding vector.  `analyze_topics` inspects the
numeric embedding values only through the elementwise `np.isnan` / `np.isinf`
tests; the values themselves are consumed solely by the external clustering
oracle, which is modelled separately.  An entry is therefore represented by
the two observable flags those tests read. -/
structure EmbVal where
  isNaN : Bool
  isInf : Bool
deriving Repr, DecidableEq

/-- The clustering oracle (the BERTopic model), as seen by the repository's
code: `labels` is the per-document label list returned by `fit_transform`
(`-1` marks an outlier); `topicInfoRows` is the `Topic` column of
`get_topic_info()` in the row order the oracle reports; `getTopic label` is
the ranked keyword list `get_topic(label)` (scores are dropped because the
assembler only ever reads the words, in rank order, and the emptiness of the
list). -/
structure Oracle where
  labels : List Int
  topicInfoRows : List Int
  getTopic : Int → List String

/-- The distinct failure kinds of the service, one per raise site of the
source (each raise site carries its own distinguishing message). -/
inductive AnalyzeError where
  | notEnoughDocuments
  | nanEmbeddings
  | infEmbeddings
  | noTopicsFound
  | notFitted
deriving Repr, DecidableEq

/-- One emitted topic record, as appended to `result["topics"]`. -/
structure Topic where
  id : Int
  label : String
  keywords : List String
  documents : List String
  size : Nat
deriving Repr, DecidableEq

/-- The `statistics` block of the response (Python ints are modelled as `Int`
where the source subtracts). -/
structure Statistics where
  total_documents : Nat
  num_topics : Int
  num_outliers : Nat
  num_documents_in_topics : Int
deriving Repr, DecidableEq

/-- The assembled analysis response.  `topic_assignments` is a Python dict
built by inserting `document_ids[i] ↦ topics[i]` in document order; it is
modelled as the ordered list of inserted key-value pairs, which coincides
with the dict contents whenever the document identifiers are distinct. -/
structure AnalyzeResult where
  topics : List Topic
  topic_assignments : List (String × Int)
  outliers : List String
  statistics : Statistics
deriving Repr, DecidableEq

/-- `assigned_docs` of the source: the document ids at positions whose label
equals `topic_id`, in original document order (lines 306-307). -/
def assignedDocs (topics : List Int) (document_ids : List String) (topic_id : Int) : List String :=
  ((topics.zip document_ids).filter (fun p => decide (p.1 = topic_id))).map (fun p => p.2)

/-- The number of distinct non-outlier labels, exactly as line 233 computes it:
`len(unique_topics) - (1 if -1 in unique_topics else 0)` with
`unique_topics = set(topics)` (a Python set is consulted only for cardinality
and membership, so it is modelled by `dedup`). -/
def numTopicsFound (topics : List Int) : Nat :=
  topics.dedup.length - (if -1 ∈ topics.dedup then 1 else 0)

/-- The body of the per-row loop over `get_topic_info()` (lines 287-317):
skip the outlier row `-1`; skip a row whose keyword list is falsy (empty);
otherwise emit the topic record with the top-20 keywords, a label joined from
the top 5, and the assigned documents. -/
def buildTopic (oracle : Oracle) (topics : List Int) (document_ids : List String)
    (topic_id : Int) : Option Topic :=
  if topic_id = -1 then none
  else
    let topic_words := oracle.getTopic topic_id
    if topic_words = [] then none
    else
      let keywords := topic_words.take 20
      let assigned_docs := assignedDocs topics document_ids topic_id
      some { id := topic_id
             label := String.intercalate (" - ") (keywords.take 5)
             keywords := keywords
             documents := assigned_docs
             size := assigned_docs.length }

/-- The list `result["topics"]` before the final sort, in the row order the
oracle reports. -/
def rawTopics (oracle : Oracle) (topics : List Int) (document_ids : List String) : List Topic :=
  oracle.topicInfoRows.filterMap (buildTopic oracle topics document_ids)

/-- Lines 266-331 of the source: build the response from the oracle's label
list.  The final `result["topics"].sort(key=lambda x: x["size"], reverse=True)`
is Python's stable sort; a stable sort by a total preorder is extensionally
unique, so it is embedded as `mergeSort` with `le a b := b.size ≤ a.size`
(descending by size, ties kept in insertion order). -/
def assemble (oracle : Oracle) (topics : List Int) (documents : List String)
    (document_ids : List String) : AnalyzeResult :=
  let num_outliers := topics.count (-1)
  { topics := (rawTopics oracle topics document_ids).mergeSort
      (fun a b => decide (b.size ≤ a.size))
    topic_assignments :=
      ((topics.zip document_ids).filter (fun p => decide (p.1 ≠ -1))).map (fun p => (p.2, p.1))
    outliers :=
      ((topics.zip document_ids).filter (fun p => decide (p.1 = -1))).map (fun p => p.2)
    statistics :=
      { total_documents := documents.length
        num_topics := (topics.dedup.length : Int) - 1
        num_outliers := num_outliers
        num_documents_in_topics := (documents.length : Int) - (num_outliers : Int) } }

/-- `TopicAnalyzer.analyze_topics` (lines 182-331).  The guards run in source
order: the minimum-document check (line 204), the NaN check (line 219), the
infinity check (line 223), then the oracle is consulted and the all-outliers
check (line 249) runs on its labels; on success the response is assembled.
`nr_topics` is received but — apart from an advisory log message — never
consulted by the assembly (lines 241-247 only print). -/
def analyze_topics (min_topic_size : Nat) (nr_topics : Option Nat) (oracle : Oracle)
    (embeddings : List (List EmbVal)) (documents : List String)
    (document_ids : List String) : Except AnalyzeError AnalyzeResult :=
  if embeddings.length < max (min_topic_size * 2) 10 then
    .error .notEnoughDocuments
  else if embeddings.any (fun row => row.any (fun v => v.isNaN)) then
    .error .nanEmbeddings
  else if embeddings.any (fun row => row.any (fun v => v.isInf)) then
    .error .infEmbeddings
  else if numTopicsFound oracle.labels = 0 then
    .error .noTopicsFound
  else
    .ok (assemble oracle oracle.labels documents document_ids)

/-- The `reduce_topics` confirmation value (line 375). -/
structure ReduceResult where
  status : String
  nr_topics : Nat
deriving Repr, DecidableEq

/-- `TopicAnalyzer.reduce_topics` (lines 358-375): `has_topics_attr` models
`hasattr(self.model, "topics_")`, which the oracle sets only when an analysis
has been fit; when absent the call fails with the not-fitted error, otherwise
the oracle merge is requested and a confirmation is returned. -/
def reduce_topics (has_topics_attr : Bool) (nr_topics : Nat) : Except AnalyzeError ReduceResult :=
  if has_topics_attr = false then
    .error .notFitted
  else
    .ok { status := "topics_reduced", nr_topics := nr_topics }

/-- A freshly constructed analyzer has not run any analysis: the fitted
attribute `topics_` is absent from its model. -/
def freshModelFitted : Bool := false

/-- Well-formedness of the oracle's reporting, the contract the clustering
library satisfies: `get_topic_info()` lists each label that occurs exactly
once (no duplicate rows, no missing or spurious labels). -/
def Oracle.WellFormed (o : Oracle) : Prop :=
  o.topicInfoRows.Nodup ∧ (∀ t ∈ o.topicInfoRows, t ∈ o.labels) ∧
    (∀ t ∈ o.labels, t ∈ o.topicInfoRows)

/-- A ten-document embedding matrix with finite, non-NaN entries. -/
def embW : List (List EmbVal) := List.replicate 10 [⟨false, false⟩]

/-- Ten document bodies. -/
def docsW : List String := List.replicate 10 "text"

/-- Ten pairwise-distinct document identifiers. -/
def idsW : List String := ["d0", "d1", "d2", "d3", "d4", "d5", "d6", "d7", "d8", "d9"]

/-- An oracle that clusters ten documents into two clusters of five with no
outliers (the two-cluster scenario of the specification). -/
def oTwoClusters : Oracle :=
  { labels := [0, 0, 0, 0, 0, 1, 1, 1, 1, 1]
    topicInfoRows := [0, 1]
    getTopic := fun t => if t = 0 then ["alpha"] else ["beta"] }

/-- An oracle that labels every one of ten documents as an outlier. -/
def oAllOutliers : Oracle :=
  { labels := List.replicate 10 (-1)
    topicInfoRows := [-1]
    getTopic := fun _ => [] }

/-- An oracle that puts all ten documents into one cluster whose keyword list
is empty. -/
def oEmptyKeywords : Oracle :=
  { labels := List.replicate 10 0
    topicInfoRows := [0]
    getTopic := fun _ => [] }

/-- Splitting a list of labels into the outlier and non-outlier parts
preserves the total length. -/
theorem length_filter_split_ne (l : List Int) :
    (l.filter (fun t => decide (t = -1))).length +
      (l.filter (fun t => decide (t ≠ -1))).length = l.length := by
  induction l with
  | nil => rfl
  | cons a l ih =>
    by_cases h : a = -1 <;>
      simp only [List.filter_cons, h, ne_eq, decide_not] at ih ⊢ <;>
      simp [h] <;> omega

/-- In a duplicate-free label list the outlier label occurs once when present
and not at all otherwise. -/
theorem length_filter_eq_neg_one_nodup (d : List Int) (hd : d.Nodup) :
    (d.filter (fun t => decide (t = -1))).length = if -1 ∈ d then 1 else 0 := by
  induction d with
  | nil => simp
  | cons a d ih =>
    rcases List.nodup_cons.mp hd with ⟨ha, hd'⟩
    by_cases h : a = -1
    · subst h
      simp [List.filter_cons, ha, ih hd']
    · have hne : ¬ ((-1 : Int) = a) := fun e => h e.symm
      simp [List.filter_cons, h, ih hd', List.mem_cons, hne]

/-- Filtering the outlier label out of a duplicate-free list leaves
`length - 1` elements when `-1` is present and `length` elements otherwise. -/
theorem length_filter_ne_neg_one (d : List Int) (hd : d.Nodup) :
    (d.filter (fun t => decide (t ≠ -1))).length = d.length - (if -1 ∈ d then 1 else 0) := by
  have h1 := length_filter_split_ne d
  have h2 := length_filter_eq_neg_one_nodup d hd
  by_cases hm : (-1 : Int) ∈ d
  · have : 0 < d.length := List.length_pos_of_mem hm
    simp only [hm, if_true] at h2 ⊢
    omega
  · simp only [hm, if_false] at h2 ⊢
    omega

/-- The guard quantity of line 233 equals the number of distinct non-outlier
labels. -/
theorem numTopicsFound_eq (topics : List Int) :
    numTopicsFound topics = (topics.dedup.filter (fun t => decide (t ≠ -1))).length := by
  rw [numTopicsFound, length_filter_ne_neg_one _ (List.nodup_dedup topics)]

/-- Eliminating a successful call: the returned value is exactly the assembled
response over the oracle's labels. -/
theorem analyze_ok_result (min_topic_size : Nat) (nr_topics : Option Nat) (oracle : Oracle)
    (embeddings : List (List EmbVal)) (documents : List String) (document_ids : List String)
    (r : AnalyzeResult)
    (h : analyze_topics min_topic_size nr_topics oracle embeddings documents document_ids =
      .ok r) :
    r = assemble oracle oracle.labels documents document_ids := by
  unfold analyze_topics at h
  split_ifs at h <;>
    first
      | exact Except.noConfusion h
      | exact (Except.ok.inj h).symm

/-- C5: with fewer documents than `max(2*min_topic_size, 10)` the call fails
with the not-enough-documents failure kind, whatever the oracle would have
answered (the guard runs before the oracle is consulted). -/
theorem C5_not_enough_documents (min_topic_size : Nat) (nr_topics : Option Nat)
    (oracle : Oracle) (embeddings : List (List EmbVal)) (documents : List String)
    (document_ids : List String)
    (h : embeddings.length < max (min_topic_size * 2) 10) :
    analyze_topics min_topic_size nr_topics oracle embeddings documents document_ids =
      .error .notEnoughDocuments := by
  unfold analyze_topics
  simp [h]

/-- Witness for C5: nine documents with `min_topic_size = 5` fail the
minimum-document guard. -/
theorem C5_witness :
    (List.replicate 9 [EmbVal.mk false false]).length < max (5 * 2) 10 ∧
    analyze_topics 5 none ⟨[], [], fun _ => []⟩ (List.replicate 9 [EmbVal.mk false false])
      (List.replicate 9 "d") (List.replicate 9 "i") = .error .notEnoughDocuments :=
  ⟨by decide,
   C5_not_enough_documents 5 none ⟨[], [], fun _ => []⟩ _ _ _ (by decide)⟩

/-- C8: invoking `reduce_topics` before any analysis has run (the model does
not carry the fitted attribute) fails with the not-fitted failure kind. -/
theorem C8_reduce_before_fit (nr_topics : Nat) :
    reduce_topics freshModelFitted nr_topics = .error .notFitted := by
  rfl

/-- C4: when the oracle labels every document `-1`, the call fails with the
no-topics-found failure kind, a constructor distinct from every other failure
kind of the service. -/
theorem C4_all_outliers_noTopicsFound (min_topic_size : Nat) (nr_topics : Option Nat)
    (oracle : Oracle) (embeddings : List (List EmbVal)) (documents : List String)
    (document_ids : List String)
    (hl : ¬ embeddings.length < max (min_topic_size * 2) 10)
    (hnan : embeddings.any (fun row => row.any (fun v => v.isNaN)) = false)
    (hinf : embeddings.any (fun row => row.any (fun v => v.isInf)) = false)
    (hall : ∀ l ∈ oracle.labels, l = -1) :
    analyze_topics min_topic_size nr_topics oracle embeddings documents document_ids =
      .error .noTopicsFound := by
  have hnil : oracle.labels.dedup.filter (fun t => decide (t ≠ -1)) = [] :=
    List.filter_eq_nil_iff.mpr (fun a ha => by
      simp [hall a (List.mem_dedup.mp ha)])
  have hz : numTopicsFound oracle.labels = 0 := by
    rw [numTopicsFound_eq, hnil]
    rfl
  unfold analyze_topics
  simp [hl, hnan, hinf, hz]

/-- Witness for C4: ten documents all labeled `-1` by the oracle. -/
theorem C4_witness :
    (¬ embW.length < max (5 * 2) 10) ∧ (∀ l ∈ oAllOutliers.labels, l = -1) ∧
    analyze_topics 5 none oAllOutliers embW docsW idsW = .error .noTopicsFound :=
  ⟨by decide, by decide,
   C4_all_outliers_noTopicsFound 5 none oAllOutliers embW docsW idsW
     (by decide) (by decide) (by decide) (by decide)⟩

/-- C1 (code bug): on ten documents the oracle splits into two clusters with
zero outliers, yet the response's `statistics.num_topics` is `1`, not the
number of distinct non-outlier labels (`2`): line 276 computes
`len(set(topics)) - 1`, subtracting one even when no `-1` label is present,
contradicting the correct count of line 233 that the code itself logs. -/
theorem C1_num_topics_bug :
    analyze_topics 5 none oTwoClusters embW docsW idsW =
      .ok (assemble oTwoClusters oTwoClusters.labels docsW idsW) ∧
    (assemble oTwoClusters oTwoClusters.labels docsW idsW).statistics.num_topics = 1 ∧
    numTopicsFound oTwoClusters.labels = 2 :=
  ⟨rfl, rfl, by decide⟩

/-- Eliminating a successful `buildTopic`: the emitted record's fields. -/
theorem buildTopic_eq_some {o : Oracle} {topics : List Int} {ids : List String} {t : Int}
    {tp : Topic} (h : buildTopic o topics ids t = some tp) :
    t ≠ -1 ∧ o.getTopic t ≠ [] ∧ tp.id = t ∧
      tp.keywords = (o.getTopic t).take 20 ∧
      tp.documents = assignedDocs topics ids t ∧
      tp.size = (assignedDocs topics ids t).length := by
  unfold buildTopic at h
  by_cases h1 : t = -1
  · rw [if_pos h1] at h
    exact Option.noConfusion h
  · rw [if_neg h1] at h
    simp only at h
    by_cases h2 : o.getTopic t = []
    · rw [if_pos h2] at h
      exact Option.noConfusion h
    · rw [if_neg h2] at h
      injection h with h
      subst h
      exact ⟨h1, h2, rfl, rfl, rfl, rfl⟩

/-- Introducing a successful `buildTopic` from a non-outlier label with a
non-empty keyword list. -/
theorem buildTopic_eq_some_of (o : Oracle) (topics : List Int) (ids : List String) (t : Int)
    (h1 : t ≠ -1) (h2 : o.getTopic t ≠ []) :
    buildTopic o topics ids t = some
      { id := t
        label := String.intercalate (" - ") (((o.getTopic t).take 20).take 5)
        keywords := (o.getTopic t).take 20
        documents := assignedDocs topics ids t
        size := (assignedDocs topics ids t).length } := by
  unfold buildTopic
  rw [if_neg h1]
  simp only
  rw [if_neg h2]

/-- `buildTopic` rejects the outlier row. -/
theorem buildTopic_neg_one (o : Oracle) (topics : List Int) (ids : List String) :
    buildTopic o topics ids (-1) = none := by
  unfold buildTopic
  rw [if_pos rfl]

/-- When every non-outlier row has a non-empty keyword list, the emitted topic
sizes are exactly the per-label document counts, row by row. -/
theorem filterMap_buildTopic_map_size (o : Oracle) (topics : List Int) (ids : List String)
    (rows : List Int) (hkw : ∀ t ∈ rows, t ≠ -1 → o.getTopic t ≠ []) :
    (rows.filterMap (buildTopic o topics ids)).map Topic.size =
      (rows.filter (fun t => decide (t ≠ -1))).map
        (fun t => (assignedDocs topics ids t).length) := by
  induction rows with
  | nil => rfl
  | cons t rows ih =>
    have hkw' : ∀ s ∈ rows, s ≠ -1 → o.getTopic s ≠ [] :=
      fun s hs => hkw s (List.mem_cons_of_mem _ hs)
    by_cases h1 : t = -1
    · subst h1
      rw [List.filterMap_cons, List.filter_cons, buildTopic_neg_one]
      simp [ih hkw']
    · have hb := buildTopic_eq_some_of o topics ids t h1 (hkw t (List.mem_cons_self _ _) h1)
      rw [List.filterMap_cons, List.filter_cons, hb]
      simp [h1, ih hkw']

/-- Sums of natural-valued maps distribute over pointwise addition. -/
theorem sum_map_add_nat {β : Type} (vs : List β) (g h : β → Nat) :
    (vs.map (fun v => g v + h v)).sum = (vs.map g).sum + (vs.map h).sum := by
  induction vs with
  | nil => rfl
  | cons v vs ih =>
    simp only [List.map_cons, List.sum_cons, ih]
    omega

/-- Over a duplicate-free list containing `b`, the indicator of `b` sums
to one. -/
theorem sum_map_indicator_one {β : Type} [DecidableEq β] (vs : List β) (hvs : vs.Nodup)
    (b : β) (hb : b ∈ vs) :
    (vs.map (fun v => if b = v then 1 else 0)).sum = 1 := by
  induction vs with
  | nil => cases hb
  | cons v vs ih =>
    rcases List.nodup_cons.mp hvs with ⟨hv, hvs'⟩
    by_cases h : b = v
    · subst h
      have hz : (vs.map (fun v => if b = v then 1 else 0)).sum = 0 := by
        apply List.sum_eq_zero
        intro x hx
        rcases List.mem_map.mp hx with ⟨w, hw, rfl⟩
        rw [if_neg (fun e => hv (by rw [e]; exact hw))]
      simp [hz]
    · rcases List.mem_cons.mp hb with h1 | h1
      · exact absurd h1 h
      · simp [h, ih hvs' h1]

/-- Partitioning a list by the (distinct) values its elements map to: the
per-value filtered lengths sum to the whole length. -/
theorem sum_map_filter_length {α β : Type} [DecidableEq β] (vs : List β) (hvs : vs.Nodup)
    (l : List α) (f : α → β) (hmem : ∀ a ∈ l, f a ∈ vs) :
    ((vs.map (fun v => (l.filter (fun a => decide (f a = v))).length)).sum) = l.length := by
  induction l with
  | nil => simp
  | cons x l ih =>
    have hmem' : ∀ a ∈ l, f a ∈ vs := fun a ha => hmem a (List.mem_cons_of_mem _ ha)
    have hx : f x ∈ vs := hmem x (List.mem_cons_self _ _)
    have hfun : (fun v => ((x :: l).filter (fun a => decide (f a = v))).length)
        = (fun v => (if f x = v then 1 else 0) + (l.filter (fun a => decide (f a = v))).length) := by
      funext v
      rw [List.filter_cons]
      by_cases h : f x = v <;> simp [h] <;> omega
    rw [hfun, sum_map_add_nat, sum_map_indicator_one vs hvs _ hx, ih hmem']
    simp [Nat.add_comm]

/-- Splitting label/id pairs into the outlier and non-outlier parts preserves
the total length. -/
theorem length_filter_split_pairs (l : List (Int × String)) :
    (l.filter (fun p => decide (p.1 = -1))).length +
      (l.filter (fun p => decide (p.1 ≠ -1))).length = l.length := by
  induction l with
  | nil => rfl
  | cons a l ih =>
    by_cases h : a.1 = -1 <;>
      simp only [List.filter_cons, h, ne_eq, decide_not] at ih ⊢ <;>
      simp [h] <;> omega

/-- Core of the size invariant: when every non-outlier label the oracle
assigns has a non-empty keyword list, the emitted sizes together with the
outlier pairs account for every label/id pair. -/
theorem sum_sizes_add_outliers (o : Oracle) (ids : List String)
    (hwf : o.WellFormed) (hlen : o.labels.length = ids.length)
    (hkw : ∀ t ∈ o.labels, t ≠ -1 → o.getTopic t ≠ []) :
    ((rawTopics o o.labels ids).map Topic.size).sum +
      ((o.labels.zip ids).filter (fun p => decide (p.1 = -1))).length = ids.length := by
  obtain ⟨hnd, hrl, hlr⟩ := hwf
  rw [rawTopics, filterMap_buildTopic_map_size o o.labels ids o.topicInfoRows
    (fun t ht h1 => hkw t (hrl t ht) h1)]
  have hlen2 : ∀ t : Int, (assignedDocs o.labels ids t).length
      = ((o.labels.zip ids).filter (fun p => decide (p.1 = t))).length := by
    intro t
    simp [assignedDocs]
  have hres : ∀ t ∈ o.topicInfoRows.filter (fun t => decide (t ≠ -1)),
      (fun t => (assignedDocs o.labels ids t).length) t
      = (fun t => (((o.labels.zip ids).filter (fun p => decide (p.1 ≠ -1))).filter
          (fun p => decide (p.1 = t))).length) t := by
    intro t ht
    have ht' : t ≠ -1 := by
      have := (List.mem_filter.mp ht).2
      exact of_decide_eq_true this
    simp only [hlen2 t, List.filter_filter]
    congr 1
    apply List.filter_congr
    intro p _
    by_cases hp : p.1 = t
    · simp [hp, ht']
    · simp [hp]
  rw [List.map_congr_left hres]
  rw [sum_map_filter_length (o.topicInfoRows.filter (fun t => decide (t ≠ -1)))
    (hnd.filter _)
    ((o.labels.zip ids).filter (fun p => decide (p.1 ≠ -1))) Prod.fst ?_]
  · have hsplit := length_filter_split_pairs (o.labels.zip ids)
    have hzl : (o.labels.zip ids).length = ids.length := by
      rw [List.length_zip, hlen]
      omega
    omega
  · intro p hp
    rcases List.mem_filter.mp hp with ⟨hpz, hpne⟩
    have hfst : p.1 ∈ o.labels := by
      have := List.of_mem_zip (show (p.1, p.2) ∈ o.labels.zip ids from hpz)
      exact this.1
    exact List.mem_filter.mpr ⟨hlr p.1 hfst, hpne⟩

/-- The size invariant at the level of the assembled response. -/
theorem assemble_sum_outliers (o : Oracle) (documents ids : List String)
    (hwf : o.WellFormed) (hlen : o.labels.length = ids.length)
    (hkw : ∀ t ∈ o.labels, t ≠ -1 → o.getTopic t ≠ []) :
    ((assemble o o.labels documents ids).topics.map Topic.size).sum +
      (assemble o o.labels documents ids).outliers.length = ids.length := by
  have htop : (assemble o o.labels documents ids).topics
      = (rawTopics o o.labels ids).mergeSort (fun a b => decide (b.size ≤ a.size)) := by
    simp [assemble]
  have hout : (assemble o o.labels documents ids).outliers
      = ((o.labels.zip ids).filter (fun p => decide (p.1 = -1))).map (fun p => p.2) := by
    simp [assemble]
  have hperm : List.Perm (assemble o o.labels documents ids).topics
      (rawTopics o o.labels ids) := by
    rw [htop]
    exact List.mergeSort_perm _ _
  have hsum : ((assemble o o.labels documents ids).topics.map Topic.size).sum
      = ((rawTopics o o.labels ids).map Topic.size).sum :=
    (hperm.map Topic.size).sum_eq
  rw [hsum, hout, List.length_map]
  exact sum_sizes_add_outliers o ids hwf hlen hkw

/-- C2 (amended): for every successful call in which every non-outlier label
the oracle assigns has a non-empty keyword list, the sum of the emitted topic
sizes plus the number of outliers equals the total number of documents in the
request. -/
theorem C2_sum_sizes_plus_outliers (min_topic_size : Nat) (nr_topics : Option Nat)
    (oracle : Oracle) (embeddings : List (List EmbVal)) (documents : List String)
    (document_ids : List String) (r : AnalyzeResult)
    (hwf : oracle.WellFormed)
    (hlen : oracle.labels.length = document_ids.length)
    (hdl : documents.length = document_ids.length)
    (hkw : ∀ t ∈ oracle.labels, t ≠ -1 → oracle.getTopic t ≠ [])
    (h : analyze_topics min_topic_size nr_topics oracle embeddings documents document_ids =
      .ok r) :
    (r.topics.map Topic.size).sum + r.outliers.length = r.statistics.total_documents := by
  obtain rfl : r = assemble oracle oracle.labels documents document_ids :=
    analyze_ok_result _ _ _ _ _ _ _ h
  have hts : (assemble oracle oracle.labels documents document_ids).statistics.total_documents
      = documents.length := by
    simp [assemble]
  rw [hts, hdl]
  exact assemble_sum_outliers oracle documents document_ids hwf hlen hkw

/-- Counterexample for C2 as stated (over arbitrary keyword lists): when the
oracle assigns all ten documents the single label `0` but reports an empty
keyword list for it, the call still succeeds, yet the topics list is empty and
there are no outliers, so the sizes and outliers sum to `0`, not to the ten
documents of the request. -/
theorem C2_counterexample :
    analyze_topics 5 none oEmptyKeywords embW docsW idsW =
      .ok (assemble oEmptyKeywords oEmptyKeywords.labels docsW idsW) ∧
    ((assemble oEmptyKeywords oEmptyKeywords.labels docsW idsW).topics.map Topic.size).sum +
      (assemble oEmptyKeywords oEmptyKeywords.labels docsW idsW).outliers.length = 0 ∧
    (assemble oEmptyKeywords oEmptyKeywords.labels docsW idsW).statistics.total_documents
      = 10 := by
  refine ⟨rfl, ?_, rfl⟩
  have hraw : rawTopics oEmptyKeywords oEmptyKeywords.labels idsW = [] := rfl
  have htop : (assemble oEmptyKeywords oEmptyKeywords.labels docsW idsW).topics = [] := by
    simp [assemble, hraw]
  have hout : (assemble oEmptyKeywords oEmptyKeywords.labels docsW idsW).outliers = [] := rfl
  rw [htop, hout]
  rfl

/-- Witness for the amended C2 at the two-cluster scenario. -/
theorem C2_witness :
    oTwoClusters.WellFormed ∧
    oTwoClusters.labels.length = idsW.length ∧
    docsW.length = idsW.length ∧
    (∀ t ∈ oTwoClusters.labels, t ≠ -1 → oTwoClusters.getTopic t ≠ []) ∧
    ((assemble oTwoClusters oTwoClusters.labels docsW idsW).topics.map Topic.size).sum +
        (assemble oTwoClusters oTwoClusters.labels docsW idsW).outliers.length =
      (assemble oTwoClusters oTwoClusters.labels docsW idsW).statistics.total_documents :=
  ⟨⟨by decide, by decide, by decide⟩, by decide, by decide, by decide,
   C2_sum_sizes_plus_outliers 5 none oTwoClusters embW docsW idsW _
     ⟨by decide, by decide, by decide⟩ (by decide) (by decide) (by decide) rfl⟩

/-- C3: with pairwise-distinct document identifiers, every identifier of a
successful call lands in exactly one of the assignment keys and the outliers
list — never both, never neither. -/
theorem C3_partition (min_topic_size : Nat) (nr_topics : Option Nat) (oracle : Oracle)
    (embeddings : List (List EmbVal)) (documents : List String) (document_ids : List String)
    (r : AnalyzeResult)
    (hnd : document_ids.Nodup)
    (hlen : oracle.labels.length = document_ids.length)
    (h : analyze_topics min_topic_size nr_topics oracle embeddings documents document_ids =
      .ok r) :
    ∀ d ∈ document_ids,
      (d ∈ r.topic_assignments.map Prod.fst ∧ d ∉ r.outliers) ∨
      (d ∉ r.topic_assignments.map Prod.fst ∧ d ∈ r.outliers) := by
  obtain rfl : r = assemble oracle oracle.labels documents document_ids :=
    analyze_ok_result _ _ _ _ _ _ _ h
  intro d hd
  have hkeys :
      (assemble oracle oracle.labels documents document_ids).topic_assignments.map Prod.fst
      = ((oracle.labels.zip document_ids).filter (fun p => decide (p.1 ≠ -1))).map
          (fun p => p.2) := by
    simp [assemble]
  have houts : (assemble oracle oracle.labels documents document_ids).outliers
      = ((oracle.labels.zip document_ids).filter (fun p => decide (p.1 = -1))).map
          (fun p => p.2) := by
    simp [assemble]
  rw [hkeys, houts]
  have hsnd : (oracle.labels.zip document_ids).map Prod.snd = document_ids :=
    List.map_snd_zip _ _ (le_of_eq hlen.symm)
  have hndp : ((oracle.labels.zip document_ids).map Prod.snd).Nodup := by
    rw [hsnd]
    exact hnd
  have hinj := List.inj_on_of_nodup_map hndp
  have hdpair : ∃ p ∈ oracle.labels.zip document_ids, p.2 = d := by
    have hmem : d ∈ (oracle.labels.zip document_ids).map Prod.snd := by
      rw [hsnd]
      exact hd
    rcases List.mem_map.mp hmem with ⟨p, hp, hpd⟩
    exact ⟨p, hp, hpd⟩
  rcases hdpair with ⟨p, hp, hpd⟩
  by_cases hc : p.1 = -1
  · right
    constructor
    · intro hmem
      rcases List.mem_map.mp hmem with ⟨q, hq, hqd⟩
      rcases List.mem_filter.mp hq with ⟨hqz, hqne⟩
      have hqp : q = p := hinj hqz hp (hqd.trans hpd.symm)
      rw [hqp] at hqne
      exact absurd hc (by simpa using hqne)
    · exact List.mem_map.mpr ⟨p, List.mem_filter.mpr ⟨hp, by simp [hc]⟩, hpd⟩
  · left
    constructor
    · exact List.mem_map.mpr ⟨p, List.mem_filter.mpr ⟨hp, by simp [hc]⟩, hpd⟩
    · intro hmem
      rcases List.mem_map.mp hmem with ⟨q, hq, hqd⟩
      rcases List.mem_filter.mp hq with ⟨hqz, hqeq⟩
      have hqp : q = p := hinj hqz hp (hqd.trans hpd.symm)
      rw [hqp] at hqeq
      exact hc (by simpa using hqeq)

/-- Witness for C3 at the two-cluster scenario with its distinct ids. -/
theorem C3_witness :
    idsW.Nodup ∧
    ∀ d ∈ idsW,
      (d ∈ (assemble oTwoClusters oTwoClusters.labels docsW idsW).topic_assignments.map
          Prod.fst ∧
        d ∉ (assemble oTwoClusters oTwoClusters.labels docsW idsW).outliers) ∨
      (d ∉ (assemble oTwoClusters oTwoClusters.labels docsW idsW).topic_assignments.map
          Prod.fst ∧
        d ∈ (assemble oTwoClusters oTwoClusters.labels docsW idsW).outliers) :=
  ⟨by decide,
   C3_partition 5 none oTwoClusters embW docsW idsW _ (by decide) (by decide) rfl⟩

/-- C7: every emitted topic carries at most 20 keywords, and carries at least
one whenever it contains at least one document (in fact unconditionally: a
topic is only emitted when its keyword list is non-empty). -/
theorem C7_keywords_bounds (min_topic_size : Nat) (nr_topics : Option Nat) (oracle : Oracle)
    (embeddings : List (List EmbVal)) (documents : List String) (document_ids : List String)
    (r : AnalyzeResult)
    (h : analyze_topics min_topic_size nr_topics oracle embeddings documents document_ids =
      .ok r) :
    ∀ tp ∈ r.topics, tp.keywords.length ≤ 20 ∧ (0 < tp.size → tp.keywords ≠ []) := by
  obtain rfl : r = assemble oracle oracle.labels documents document_ids :=
    analyze_ok_result _ _ _ _ _ _ _ h
  intro tp htp
  have htop : (assemble oracle oracle.labels documents document_ids).topics
      = (rawTopics oracle oracle.labels document_ids).mergeSort
          (fun a b => decide (b.size ≤ a.size)) := by
    simp [assemble]
  rw [htop] at htp
  have hraw : tp ∈ rawTopics oracle oracle.labels document_ids := List.mem_mergeSort.mp htp
  rw [rawTopics] at hraw
  rcases List.mem_filterMap.mp hraw with ⟨t, _, hbt⟩
  obtain ⟨_, h2, _, hkwe, _, _⟩ := buildTopic_eq_some hbt
  refine ⟨?_, fun _ => ?_⟩
  · rw [hkwe]
    exact List.length_take_le _ _
  · rw [hkwe]
    intro hnil
    rcases List.take_eq_nil_iff.mp hnil with h20 | hget
    · cases h20
    · exact h2 hget

/-- Witness for C7 at the two-cluster scenario, instantiated at the topic the
first cluster emits. -/
theorem C7_witness :
    (Topic.mk 0 ("alpha") ["alpha"] ["d0", "d1", "d2", "d3", "d4"] 5).keywords.length ≤ 20 ∧
    (0 < (Topic.mk 0 ("alpha") ["alpha"] ["d0", "d1", "d2", "d3", "d4"] 5).size →
      (Topic.mk 0 ("alpha") ["alpha"] ["d0", "d1", "d2", "d3", "d4"] 5).keywords ≠ []) :=
  C7_keywords_bounds 5 none oTwoClusters embW docsW idsW _ rfl
    (Topic.mk 0 ("alpha") ["alpha"] ["d0", "d1", "d2", "d3", "d4"] 5)
    (show Topic.mk 0 ("alpha") ["alpha"] ["d0", "d1", "d2", "d3", "d4"] 5
        ∈ (rawTopics oTwoClusters oTwoClusters.labels idsW).mergeSort
          (fun a b => decide (b.size ≤ a.size)) from
      List.mem_mergeSort.mpr (by decide))

/-- Transitivity of the descending-by-size comparison used for the final
sort. -/
theorem sizeLe_trans (a b c : Topic)
    (h1 : (fun a b : Topic => decide (b.size ≤ a.size)) a b)
    (h2 : (fun a b : Topic => decide (b.size ≤ a.size)) b c) :
    (fun a b : Topic => decide (b.size ≤ a.size)) a c = true := by
  simp only [decide_eq_true_eq] at h1 h2 ⊢
  omega

/-- Totality of the descending-by-size comparison used for the final sort. -/
theorem sizeLe_total (a b : Topic) :
    ((fun a b : Topic => decide (b.size ≤ a.size)) a b ||
      (fun a b : Topic => decide (b.size ≤ a.size)) b a) = true := by
  simp only [Bool.or_eq_true, decide_eq_true_eq]
  omega

/-- C6: in every successful result the topics are sorted by size descending,
and the topics of any fixed size appear exactly as in the pre-sort assembly
list, which follows the order the oracle reported the labels (stability). -/
theorem C6_sorted_stable (min_topic_size : Nat) (nr_topics : Option Nat) (oracle : Oracle)
    (embeddings : List (List EmbVal)) (documents : List String) (document_ids : List String)
    (r : AnalyzeResult)
    (h : analyze_topics min_topic_size nr_topics oracle embeddings documents document_ids =
      .ok r) :
    r.topics.Pairwise (fun a b => b.size ≤ a.size) ∧
    ∀ n : Nat, r.topics.filter (fun tp => decide (tp.size = n)) =
      (rawTopics oracle oracle.labels document_ids).filter (fun tp => decide (tp.size = n)) := by
  obtain rfl : r = assemble oracle oracle.labels documents document_ids :=
    analyze_ok_result _ _ _ _ _ _ _ h
  have htop : (assemble oracle oracle.labels documents document_ids).topics
      = (rawTopics oracle oracle.labels document_ids).mergeSort
          (fun a b => decide (b.size ≤ a.size)) := by
    simp [assemble]
  rw [htop]
  constructor
  · have hs := List.sorted_mergeSort sizeLe_trans sizeLe_total
      (rawTopics oracle oracle.labels document_ids)
    exact hs.imp (fun hab => of_decide_eq_true hab)
  · intro n
    have hties : ((rawTopics oracle oracle.labels document_ids).filter
        (fun tp => decide (tp.size = n))).Pairwise
        (fun a b => (fun a b : Topic => decide (b.size ≤ a.size)) a b) := by
      apply List.pairwise_of_forall_mem_list
      intro a ha b hb
      have ha' : a.size = n := of_decide_eq_true (List.mem_filter.mp ha).2
      have hb' : b.size = n := of_decide_eq_true (List.mem_filter.mp hb).2
      simp [ha', hb']
    have hstable := List.sublist_mergeSort sizeLe_trans sizeLe_total hties
      (List.filter_sublist _)
    have hperm : List.Perm
        (((rawTopics oracle oracle.labels document_ids).mergeSort
          (fun a b => decide (b.size ≤ a.size))).filter (fun tp => decide (tp.size = n)))
        ((rawTopics oracle oracle.labels document_ids).filter
          (fun tp => decide (tp.size = n))) :=
      (List.mergeSort_perm _ _).filter _
    have hsub2 := hstable.filter (fun tp => decide (tp.size = n))
    rw [List.filter_eq_self.mpr (fun a ha => (List.mem_filter.mp ha).2)] at hsub2
    exact (hsub2.eq_of_length hperm.length_eq.symm).symm

/-- Witness for C6 at the two-cluster scenario. -/
theorem C6_witness :
    (assemble oTwoClusters oTwoClusters.labels docsW idsW).topics.Pairwise
      (fun a b => b.size ≤ a.size) ∧
    ∀ n : Nat,
      (assemble oTwoClusters oTwoClusters.labels docsW idsW).topics.filter
        (fun tp => decide (tp.size = n)) =
      (rawTopics oTwoClusters oTwoClusters.labels idsW).filter
        (fun tp => decide (tp.size = n)) :=
  C6_sorted_stable 5 none oTwoClusters embW docsW idsW _ rfl

/-- C10: a non-outlier label whose keyword list is empty produces no Topic
record at all, while the documents carrying that label are still mapped to it
in `topic_assignments`. -/
theorem C10_empty_keywords_leak (min_topic_size : Nat) (nr_topics : Option Nat)
    (oracle : Oracle) (embeddings : List (List EmbVal)) (documents : List String)
    (document_ids : List String) (r : AnalyzeResult) (t : Int)
    (hlen : oracle.labels.length = document_ids.length)
    (ht : t ∈ oracle.labels) (htne : t ≠ -1) (hempty : oracle.getTopic t = [])
    (h : analyze_topics min_topic_size nr_topics oracle embeddings documents document_ids =
      .ok r) :
    (∀ tp ∈ r.topics, tp.id ≠ t) ∧
    (∃ d, (d, t) ∈ r.topic_assignments) ∧
    (∀ p ∈ oracle.labels.zip document_ids, p.1 = t → (p.2, t) ∈ r.topic_assignments) := by
  obtain rfl : r = assemble oracle oracle.labels documents document_ids :=
    analyze_ok_result _ _ _ _ _ _ _ h
  have hassign : (assemble oracle oracle.labels documents document_ids).topic_assignments
      = ((oracle.labels.zip document_ids).filter (fun p => decide (p.1 ≠ -1))).map
          (fun p => (p.2, p.1)) := by
    simp [assemble]
  have htop : (assemble oracle oracle.labels documents document_ids).topics
      = (rawTopics oracle oracle.labels document_ids).mergeSort
          (fun a b => decide (b.size ≤ a.size)) := by
    simp [assemble]
  have hin : ∀ p ∈ oracle.labels.zip document_ids, p.1 = t →
      (p.2, t) ∈ (assemble oracle oracle.labels documents document_ids).topic_assignments := by
    intro p hp hpt
    rw [hassign]
    apply List.mem_map.mpr
    refine ⟨p, List.mem_filter.mpr ⟨hp, by simp [hpt, htne]⟩, by rw [hpt]⟩
  refine ⟨?_, ?_, hin⟩
  · intro tp htp heq
    rw [htop] at htp
    have hraw := List.mem_mergeSort.mp htp
    rw [rawTopics] at hraw
    rcases List.mem_filterMap.mp hraw with ⟨s, _, hbs⟩
    obtain ⟨_, h2, hid, _, _, _⟩ := buildTopic_eq_some hbs
    have hst : s = t := hid.symm.trans heq
    rw [hst] at h2
    exact h2 hempty
  · have hfst : (oracle.labels.zip document_ids).map Prod.fst = oracle.labels :=
      List.map_fst_zip _ _ (le_of_eq hlen)
    have hmem : t ∈ (oracle.labels.zip document_ids).map Prod.fst := by
      rw [hfst]
      exact ht
    rcases List.mem_map.mp hmem with ⟨p, hp, hpt⟩
    exact ⟨p.2, hin p hp hpt⟩

/-- Witness for C10: all ten documents share the label `0`, whose keyword
list is empty. -/
theorem C10_witness :
    (0 : Int) ∈ oEmptyKeywords.labels ∧ oEmptyKeywords.getTopic 0 = [] ∧
    ((∀ tp ∈ (assemble oEmptyKeywords oEmptyKeywords.labels docsW idsW).topics, tp.id ≠ 0) ∧
     (∃ d, (d, (0 : Int)) ∈
        (assemble oEmptyKeywords oEmptyKeywords.labels docsW idsW).topic_assignments) ∧
     (∀ p ∈ oEmptyKeywords.labels.zip idsW, p.1 = 0 → (p.2, (0 : Int)) ∈
        (assemble oEmptyKeywords oEmptyKeywords.labels docsW idsW).topic_assignments)) :=
  ⟨by decide, rfl,
   C10_empty_keywords_leak 5 none oEmptyKeywords embW docsW idsW _ 0
     (by decide) (by decide) (by decide) rfl rfl⟩

/-- C9: when a target topic count is requested but the oracle produced fewer
distinct non-outlier labels, the call still succeeds and returns exactly one
topic per label actually found, satisfying the size invariant. -/
theorem C9_shortfall_not_error (min_topic_size : Nat) (n : Nat) (oracle : Oracle)
    (embeddings : List (List EmbVal)) (documents : List String) (document_ids : List String)
    (hl : ¬ embeddings.length < max (min_topic_size * 2) 10)
    (hnan : embeddings.any (fun row => row.any (fun v => v.isNaN)) = false)
    (hinf : embeddings.any (fun row => row.any (fun v => v.isInf)) = false)
    (hwf : oracle.WellFormed)
    (hlen : oracle.labels.length = document_ids.length)
    (hdl : documents.length = document_ids.length)
    (hkw : ∀ t ∈ oracle.labels, t ≠ -1 → oracle.getTopic t ≠ [])
    (hpos : 0 < numTopicsFound oracle.labels)
    (hshort : numTopicsFound oracle.labels < n) :
    ∃ r, analyze_topics min_topic_size (some n) oracle embeddings documents document_ids =
        .ok r ∧
      r.topics.length = numTopicsFound oracle.labels ∧
      (∀ t : Int, (∃ tp ∈ r.topics, tp.id = t) ↔ (t ∈ oracle.labels ∧ t ≠ -1)) ∧
      (r.topics.map Topic.size).sum + r.outliers.length = r.statistics.total_documents := by
  obtain ⟨hnd, hrl, hlr⟩ := hwf
  have htop : (assemble oracle oracle.labels documents document_ids).topics
      = (rawTopics oracle oracle.labels document_ids).mergeSort
          (fun a b => decide (b.size ≤ a.size)) := by
    simp [assemble]
  refine ⟨assemble oracle oracle.labels documents document_ids, ?_, ?_, ?_, ?_⟩
  · unfold analyze_topics
    rw [if_neg hl, if_neg (by simp [hnan]), if_neg (by simp [hinf]), if_neg (by omega)]
  · rw [htop, List.length_mergeSort]
    have hms := filterMap_buildTopic_map_size oracle oracle.labels document_ids
      oracle.topicInfoRows (fun t ht h1 => hkw t (hrl t ht) h1)
    have hlraw : (rawTopics oracle oracle.labels document_ids).length
        = (oracle.topicInfoRows.filter (fun t => decide (t ≠ -1))).length := by
      have hc := congrArg List.length hms
      rw [List.length_map, List.length_map] at hc
      rw [rawTopics]
      exact hc
    rw [hlraw]
    have hpe : List.Perm (oracle.topicInfoRows.filter (fun t => decide (t ≠ -1)))
        (oracle.labels.dedup.filter (fun t => decide (t ≠ -1))) := by
      apply (List.perm_ext_iff_of_nodup (hnd.filter _) ((List.nodup_dedup _).filter _)).mpr
      intro a
      simp only [List.mem_filter, List.mem_dedup]
      constructor
      · rintro ⟨h1, h2⟩
        exact ⟨hrl a h1, h2⟩
      · rintro ⟨h1, h2⟩
        exact ⟨hlr a h1, h2⟩
    rw [hpe.length_eq, ← numTopicsFound_eq]
  · intro t
    rw [htop]
    constructor
    · rintro ⟨tp, htp, hid⟩
      have hraw := List.mem_mergeSort.mp htp
      rw [rawTopics] at hraw
      rcases List.mem_filterMap.mp hraw with ⟨s, hs, hbs⟩
      obtain ⟨h1, _, hids, _, _, _⟩ := buildTopic_eq_some hbs
      have hst : s = t := hids.symm.trans hid
      rw [hst] at hs h1
      exact ⟨hrl t hs, h1⟩
    · rintro ⟨htl, htne⟩
      cases hbb : buildTopic oracle oracle.labels document_ids t with
      | none =>
        rw [buildTopic_eq_some_of oracle oracle.labels document_ids t htne
          (hkw t htl htne)] at hbb
        exact Option.noConfusion hbb
      | some tp0 =>
        refine ⟨tp0, ?_, (buildTopic_eq_some hbb).2.2.1⟩
        apply List.mem_mergeSort.mpr
        rw [rawTopics]
        exact List.mem_filterMap.mpr ⟨t, hlr t htl, hbb⟩
  · have hts :
        (assemble oracle oracle.labels documents document_ids).statistics.total_documents
        = documents.length := by
      simp [assemble]
    rw [hts, hdl]
    exact assemble_sum_outliers oracle documents document_ids ⟨hnd, hrl, hlr⟩ hlen hkw

/-- Witness for C9: five topics requested, the oracle found only two. -/
theorem C9_witness :
    0 < numTopicsFound oTwoClusters.labels ∧ numTopicsFound oTwoClusters.labels < 5 ∧
    ∃ r, analyze_topics 5 (some 5) oTwoClusters embW docsW idsW = .ok r ∧
      r.topics.length = numTopicsFound oTwoClusters.labels ∧
      (∀ t : Int, (∃ tp ∈ r.topics, tp.id = t) ↔ (t ∈ oTwoClusters.labels ∧ t ≠ -1)) ∧
      (r.topics.map Topic.size).sum + r.outliers.length = r.statistics.total_documents :=
  ⟨by decide, by decide,
   C9_shortfall_not_error 5 5 oTwoClusters embW docsW idsW (by decide) (by decide) (by decide)
     ⟨by decide, by decide, by decide⟩ (by decide) (by decide) (by decide)
     (by decide) (by decide)⟩
